import Mathlib

set_option linter.unusedVariables false

/-!
Verification of the itinerary-generation pipeline of the AI travel planner.

The development shallowly embeds the Python services of the repository:

* `app/utils/json_repair.py`, `app/utils/validators.py`
* `app/services/llm_service.py`   (parsing, validation, retries, fallback)
* `app/services/cache_service.py` (cache-key canonicalisation)
* `app/services/location_service.py` (geo-enrichment)
* `app/services/route_optimizer.py`  (nearest-neighbour route ordering)
* `app/services/itinerary_service.py` (enrich-and-optimize step)

Conventions of the embedding:

* JSON values are the inductive `PyVal`; `jsonLoads` is an executable model of
  Python's `json.loads` (strict JSON: double-quoted strings, no trailing
  commas, whole-input consumption).
* Python numbers are modelled by `ℚ`; Python's `round(x, 1)` is modelled by
  exact rational round-half-to-even on tenths (`roundPy1`).
* External collaborators (the generation backend, the geocoder) and the
  transcendental haversine distance are parameters of the functions that the
  source code merely calls, so that the theorems quantify over them.
* Python exceptions are modelled by `Option`/`Except`.
-/

/-- A JSON value, as produced by Python's `json.loads`.  Objects keep their
key/value pairs in textual order (Python dicts preserve insertion order). -/
inductive PyVal where
  | pyNone : PyVal
  | pyBool : Bool → PyVal
  | pyNum : ℚ → PyVal
  | pyStr : String → PyVal
  | pyList : List PyVal → PyVal
  | pyDict : List (String × PyVal) → PyVal

/-- The characters `{` and `}` used by the JSON grammar. -/
def lbrace : Char := Char.ofNat 123

/-- Closing brace character. -/
def rbrace : Char := Char.ofNat 125

/-- Python dict indexing `d[k]` for a dict built by `json.loads`: duplicate
keys in the source text are resolved by keeping the last occurrence, which a
left fold reproduces. -/
def jsonLookup (kvs : List (String × PyVal)) (k : String) : Option PyVal :=
  kvs.foldl (fun acc p => if p.1 = k then some p.2 else acc) none

/-- JSON whitespace characters (as in Python's `json` module). -/
def isJsonWs (c : Char) : Bool :=
  c = ' ' || c = '\t' || c = '\n' || c = '\r'

/-- Drop leading JSON whitespace. -/
def skipWs (cs : List Char) : List Char :=
  cs.dropWhile isJsonWs

/-- Value of a hexadecimal digit, by code point: `0`-`9` are 48-57,
`A`-`F` are 65-70, `a`-`f` are 97-102. -/
def hexVal (c : Char) : Option Nat :=
  let n := c.toNat
  if 48 ≤ n ∧ n ≤ 57 then some (n - 48)
  else if 97 ≤ n ∧ n ≤ 102 then some (n - 87)
  else if 65 ≤ n ∧ n ≤ 70 then some (n - 55)
  else none

/-- Value of a decimal digit. -/
def digitVal (c : Char) : Option Nat :=
  if '0' ≤ c && c ≤ '9' then some (c.toNat - '0'.toNat) else none

/-- Parse the body of a JSON string literal (the opening quote has been
consumed), handling the escape sequences accepted by Python's `json`. -/
def parseStringBody : Nat → List Char → List Char → Option (String × List Char)
  | 0, _, _ => none
  | _, [], _ => none
  | fuel + 1, c :: rest, acc =>
    if c = '"' then some (String.mk acc.reverse, rest)
    else if c = '\\' then
      match rest with
      | [] => none
      | e :: rest2 =>
        if e = '"' then parseStringBody fuel rest2 ('"' :: acc)
        else if e = '\\' then parseStringBody fuel rest2 ('\\' :: acc)
        else if e = '/' then parseStringBody fuel rest2 ('/' :: acc)
        else if e = 'n' then parseStringBody fuel rest2 ('\n' :: acc)
        else if e = 't' then parseStringBody fuel rest2 ('\t' :: acc)
        else if e = 'r' then parseStringBody fuel rest2 ('\r' :: acc)
        else if e = 'b' then parseStringBody fuel rest2 (Char.ofNat 8 :: acc)
        else if e = 'f' then parseStringBody fuel rest2 (Char.ofNat 12 :: acc)
        else if e = 'u' then
          match rest2 with
          | h1 :: h2 :: h3 :: h4 :: rest3 =>
            match hexVal h1, hexVal h2, hexVal h3, hexVal h4 with
            | some a, some b, some c2, some d =>
              parseStringBody fuel rest3 (Char.ofNat (((a * 16 + b) * 16 + c2) * 16 + d) :: acc)
            | _, _, _, _ => none
          | _ => none
        else none
    else parseStringBody fuel rest (c :: acc)

/-- Greedily read decimal digits, returning their values and the rest. -/
def takeDigits : List Char → List Nat × List Char
  | [] => ([], [])
  | c :: rest =>
    match digitVal c with
    | some d =>
      let (ds, rest2) := takeDigits rest
      (d :: ds, rest2)
    | none => ([], c :: rest)

/-- Numeric value of a big-endian digit list. -/
def digitsToNat (ds : List Nat) : Nat :=
  ds.foldl (fun acc d => acc * 10 + d) 0

/-- Parse a JSON number (sign, integer part without leading zeros, optional
fraction, optional exponent), as accepted by Python's `json`. -/
def parseNumber (cs : List Char) : Option (ℚ × List Char) :=
  let (neg, cs1) :=
    match cs with
    | c :: rest => if c = '-' then (true, rest) else (false, cs)
    | [] => (false, cs)
  let (intDs, cs2) := takeDigits cs1
  match intDs with
  | [] => none
  | d0 :: dsTail =>
    -- JSON forbids leading zeros: "0" is fine, "01" is not.
    if d0 = 0 ∧ dsTail ≠ [] then none
    else
      let intPart : ℚ := (digitsToNat intDs : ℚ)
      let (fracPart, cs3) : ℚ × List Char :=
        match cs2 with
        | c :: rest =>
          if c = '.' then
            match takeDigits rest with
            | ([], _) => (0, c :: rest)
            | (fds, rest2) => ((digitsToNat fds : ℚ) / ((10 : ℚ) ^ fds.length), rest2)
          else (0, c :: rest)
        | [] => (0, [])
      -- a fraction dot with no digits is a parse error in JSON
      match cs3 with
      | c :: _ =>
        if c = '.' then none
        else
          let base : ℚ := intPart + fracPart
          let signed : ℚ := if neg then -base else base
          match cs3 with
          | e :: rest3 =>
            if e = 'e' ∨ e = 'E' then
              let (eneg, rest4) :=
                match rest3 with
                | s :: r => if s = '-' then (true, r) else if s = '+' then (false, r) else (false, rest3)
                | [] => (false, rest3)
              match takeDigits rest4 with
              | ([], _) => none
              | (eds, rest5) =>
                let ex := digitsToNat eds
                let scaled := if eneg then signed / ((10 : ℚ) ^ ex) else signed * ((10 : ℚ) ^ ex)
                some (scaled, rest5)
            else some (signed, cs3)
          | [] => some (signed, [])
      | [] => some ((if neg then -intPart else intPart) + fracPart, [])

/-- Check that the input starts with the given literal characters. -/
def expectChars : List Char → List Char → Option (List Char)
  | [], cs => some cs
  | e :: es, c :: cs => if c = e then expectChars es cs else none
  | _ :: _, [] => none

mutual

/-- Parse one JSON value.  `fuel` bounds the recursion depth; callers supply
at least the input length plus one, which always suffices because every
recursive call consumes at least one character first. -/
def parseJsonVal : Nat → List Char → Option (PyVal × List Char)
  | 0, _ => none
  | fuel + 1, cs =>
    match skipWs cs with
    | [] => none
    | c :: rest =>
      if c = '"' then
        match parseStringBody (rest.length + 1) rest [] with
        | some (s, rest2) => some (PyVal.pyStr s, rest2)
        | none => none
      else if c = lbrace then parseObjBody fuel rest
      else if c = '[' then parseArrBody fuel rest
      else if c = 't' then
        match expectChars ['r', 'u', 'e'] rest with
        | some rest2 => some (PyVal.pyBool true, rest2)
        | none => none
      else if c = 'f' then
        match expectChars ['a', 'l', 's', 'e'] rest with
        | some rest2 => some (PyVal.pyBool false, rest2)
        | none => none
      else if c = 'n' then
        match expectChars ['u', 'l', 'l'] rest with
        | some rest2 => some (PyVal.pyNone, rest2)
        | none => none
      else
        match parseNumber (c :: rest) with
        | some (q, rest2) => some (PyVal.pyNum q, rest2)
        | none => none

/-- Parse the inside of a JSON array (the `[` has been consumed). -/
def parseArrBody : Nat → List Char → Option (PyVal × List Char)
  | 0, _ => none
  | fuel + 1, cs =>
    match skipWs cs with
    | c :: rest =>
      if c = ']' then some (PyVal.pyList [], rest)
      else
        match parseArrElems fuel (c :: rest) with
        | some (xs, rest2) => some (PyVal.pyList xs, rest2)
        | none => none
    | [] => none

/-- Parse one or more comma-separated array elements followed by `]`. -/
def parseArrElems : Nat → List Char → Option (List PyVal × List Char)
  | 0, _ => none
  | fuel + 1, cs =>
    match parseJsonVal fuel cs with
    | none => none
    | some (v, rest) =>
      match skipWs rest with
      | c :: rest2 =>
        if c = ',' then
          match parseArrElems fuel rest2 with
          | some (xs, rest3) => some (v :: xs, rest3)
          | none => none
        else if c = ']' then some ([v], rest2)
        else none
      | [] => none

/-- Parse the inside of a JSON object (the opening brace has been consumed). -/
def parseObjBody : Nat → List Char → Option (PyVal × List Char)
  | 0, _ => none
  | fuel + 1, cs =>
    match skipWs cs with
    | c :: rest =>
      if c = rbrace then some (PyVal.pyDict [], rest)
      else
        match parseObjMembers fuel (c :: rest) with
        | some (kvs, rest2) => some (PyVal.pyDict kvs, rest2)
        | none => none
    | [] => none

/-- Parse one or more comma-separated `"key": value` members followed by a
closing brace. -/
def parseObjMembers : Nat → List Char → Option (List (String × PyVal) × List Char)
  | 0, _ => none
  | fuel + 1, cs =>
    match skipWs cs with
    | c :: rest =>
      if c = '"' then
        match parseStringBody (rest.length + 1) rest [] with
        | none => none
        | some (k, rest2) =>
          match skipWs rest2 with
          | c2 :: rest3 =>
            if c2 = ':' then
              match parseJsonVal fuel rest3 with
              | none => none
              | some (v, rest4) =>
                match skipWs rest4 with
                | c3 :: rest5 =>
                  if c3 = ',' then
                    match parseObjMembers fuel rest5 with
                    | some (kvs, rest6) => some ((k, v) :: kvs, rest6)
                    | none => none
                  else if c3 = rbrace then some ([(k, v)], rest5)
                  else none
                | [] => none
            else none
          | [] => none
      else none
    | [] => none

end

/-- Model of Python's `json.loads`: parse one JSON value and require that only
whitespace remains. -/
def jsonLoads (s : String) : Option PyVal :=
  match parseJsonVal (s.data.length + 1) s.data with
  | some (v, rest) => if (skipWs rest).isEmpty then some v else none
  | none => none

/-! ## Structural validators

`LLMService._validate_itinerary_structure` (app/services/llm_service.py,
lines 280-319) and `validate_parsed_plan` (app/utils/validators.py). -/

/-- The fields `_validate_itinerary_structure` requires of every day record. -/
def requiredDayFields : List String := ["day", "date", "town", "place", "activities"]

/-- One day record passes `_validate_itinerary_structure`: it is a dict, every
required field is present, and `activities` is a list. -/
def dayRecordOk (d : PyVal) : Bool :=
  match d with
  | PyVal.pyDict dkvs =>
    requiredDayFields.all (fun f => (jsonLookup dkvs f).isSome) &&
      (match jsonLookup dkvs "activities" with
       | some (PyVal.pyList _) => true
       | _ => false)
  | _ => false

namespace LLMService

/-- `LLMService._validate_itinerary_structure`: the parsed data must be a dict
with a `plan` key holding a list of day records, each a dict with the five
required fields and a list-valued `activities`.  The comparison of
`len(plan)` against `len(travel_dates)` in the source only emits a log
message and does not affect the result, so `travel_dates` is unused here.
A non-dict input returns `False` (for lists/strings the `in` test fails or
the subsequent indexing raises `TypeError`, which the enclosing
`try/except` turns into `False`). -/
def validate_itinerary_structure (parsed : PyVal) (travel_dates : List String) : Bool :=
  match parsed with
  | PyVal.pyDict kvs =>
    match jsonLookup kvs "plan" with
    | some (PyVal.pyList plan) => plan.all dayRecordOk
    | some _ => false
    | none => false
  | _ => false

end LLMService

/-- The fields `validate_parsed_plan` requires of every day record. -/
def minimalDayFields : List String := ["town", "place", "activities"]

/-- One day record passes `validate_parsed_plan`: a dict containing at least
`town`, `place` and a list-valued `activities`. -/
def minimalDayOk (d : PyVal) : Bool :=
  match d with
  | PyVal.pyDict dkvs =>
    minimalDayFields.all (fun f => (jsonLookup dkvs f).isSome) &&
      (match jsonLookup dkvs "activities" with
       | some (PyVal.pyList _) => true
       | _ => false)
  | _ => false

/-- `validate_parsed_plan` (app/utils/validators.py): the plan must be a
non-empty list of at most `expected_days * 2` day records, each a dict with
at least `town`, `place` and a list-valued `activities`.  This helper is
not imported anywhere in the new service; the old service's `parse_llm_response`
uses its twin from `ai-service-old/helpers.py`. -/
def validate_parsed_plan (plan : PyVal) (expected_days : Nat) : Bool :=
  match plan with
  | PyVal.pyList days =>
    !days.isEmpty && decide (days.length ≤ expected_days * 2) && days.all minimalDayOk
  | _ => false

/-! ## Response parsing and the repair pipeline

`LLMService._parse_llm_response_with_validation` (llm_service.py, lines
210-278).  The source first extracts `raw_response[find('{') : rfind('}')+1]`
and attempts a direct parse.  On a `JSONDecodeError` it evaluates the list

    repair_strategies = [
        ("Basic repair", repair_json_basic),
        ("Missing commas fix", fix_missing_commas),
        ("Smart comma repair", smart_comma_repair),
        ("Character-level repair", character_level_repair),
        ("Aggressive repair", self.repair_json_aggressive),
        ("Final validation repair", validate_and_repair_json)
    ]

The module's only import of repair helpers is the star form of
`from ..utils.json_repair`; `app/utils/json_repair.py` defines no
`__all__` and its only
public module-level bindings are `json`, `re` and the class `JSONRepairer`
(the repair functions are static methods of that class, and
`fix_missing_commas` / `validate_and_repair_json` exist nowhere in the new
service).  Evaluating the list display therefore raises `NameError` at its
first element, before any strategy can run; the outer `except Exception`
catches it and the function returns `None`. -/

/-- Name lookup in the module scope of `app.services.llm_service` restricted
to `String → String` repair functions: the star import of
`app.utils.json_repair` binds only `json`, `re` and `JSONRepairer`, and the
module itself defines no function with any of the five looked-up names, so
every lookup fails (Python raises `NameError`). -/
def llmServiceScopeFunction (name : String) : Option (String → String) := none

/-- Evaluation of the `repair_strategies` list display.  Python evaluates the
tuple elements in textual order, so the first unbound name aborts the whole
list; `self.repair_json_aggressive` (an attribute lookup on `self`, which
does succeed) is reached only if the four module-scope names before it
resolve.  The result is `none`, modelling the `NameError`. -/
def buildRepairStrategies (aggressive : String → String) :
    Option (List (String → String)) :=
  match llmServiceScopeFunction "repair_json_basic" with
  | none => none
  | some f1 =>
    match llmServiceScopeFunction "fix_missing_commas" with
    | none => none
    | some f2 =>
      match llmServiceScopeFunction "smart_comma_repair" with
      | none => none
      | some f3 =>
        match llmServiceScopeFunction "character_level_repair" with
        | none => none
        | some f4 =>
          match llmServiceScopeFunction "validate_and_repair_json" with
          | none => none
          | some f6 => some [f1, f2, f3, f4, aggressive, f6]

/-- The strategy loop of `_parse_llm_response_with_validation` (lines
250-270): apply each repair function in order; if its output parses and
passes structural validation, return the parse; on a parse error, an
exception, or a validation failure, continue with the next strategy. -/
def runRepairStrategies (strategies : List (String → String)) (json_str : String)
    (travel_dates : List String) : Option PyVal :=
  match strategies with
  | [] => none
  | f :: rest =>
    match jsonLoads (f json_str) with
    | some parsed =>
      if LLMService.validate_itinerary_structure parsed travel_dates then some parsed
      else runRepairStrategies rest json_str travel_dates
    | none => runRepairStrategies rest json_str travel_dates

/-- Index of the first occurrence of a character, scanning from position `i`. -/
def firstIdxFrom (c : Char) : List Char → Nat → Option Nat
  | [], _ => none
  | a :: rest, i => if a = c then some i else firstIdxFrom c rest (i + 1)

/-- Index of the last occurrence of a character (Python `str.rfind`). -/
def lastIdxFrom (c : Char) : List Char → Nat → Option Nat → Option Nat
  | [], _, acc => acc
  | a :: rest, i, acc => lastIdxFrom c rest (i + 1) (if a = c then some i else acc)

/-- The substring extraction of lines 217-224:
`raw_response[raw.find('{') : raw.rfind('}') + 1]`, giving up when either
delimiter is absent (`json_start == -1 or json_end == 0`).  Python slicing
with an upper bound at or below the lower bound yields the empty string,
matched here by `take` of a truncated subtraction. -/
def extractJson (raw : String) : Option String :=
  let cs := raw.data
  match firstIdxFrom lbrace cs 0, lastIdxFrom rbrace cs 0 none with
  | some s, some e => some (String.mk ((cs.drop s).take (e + 1 - s)))
  | _, _ => none

namespace LLMService

/-- `LLMService._parse_llm_response_with_validation`:
extract the brace-delimited substring, attempt a direct `json.loads` and, on
success, gate it through `_validate_itinerary_structure`; on a parse error,
evaluate the repair-strategy list (which raises `NameError`, swallowed by
the outer handler as `None`) and otherwise run the strategies in order.
`aggressive` stands for the bound method `self.repair_json_aggressive`, the
one strategy whose name does resolve. -/
def parse_llm_response_with_validation (aggressive : String → String)
    (raw_response : String) (travel_dates : List String) : Option PyVal :=
  match extractJson raw_response with
  | none => none
  | some json_str =>
    match jsonLoads json_str with
    | some parsed =>
      if validate_itinerary_structure parsed travel_dates then some parsed else none
    | none =>
      match buildRepairStrategies aggressive with
      | none => none
      | some strategies => runRepairStrategies strategies json_str travel_dates

end LLMService

/-! ## Retry controller and deterministic fallback

`LLMService._generate_with_retries` (llm_service.py, lines 156-193) and
`LLMService._create_fallback_itinerary` (lines 627-661).

The generation backend is modelled by an oracle `Nat → Except String String`
giving, for each attempt index, either the raw response text of
`self._call_ollama(prompt)` or the exception it raised (timeout / non-200
status).  Prompt mutation between attempts (`_modify_prompt_for_retry`) and
the fixed `asyncio.sleep` delay affect neither control flow nor the returned
value and are not represented.  Python's `date.strftime('%B %d, %Y')` /
`datetime.strptime` formatting is modelled by an abstract total function
`fmt : String → String`. -/

/-- One day entry of `_create_fallback_itinerary` (llm_service.py, lines
630-649), as the JSON-level dict the source builds. -/
def fallbackDayJson (fmt : String → String) (i : Nat) (date : String) : PyVal :=
  PyVal.pyDict
    [("day", PyVal.pyNum ((i : ℚ) + 1)),
     ("date", PyVal.pyStr date),
     ("formatted_date", PyVal.pyStr (fmt date)),
     ("town", PyVal.pyStr "Destination"),
     ("place", PyVal.pyStr "City Center"),
     ("activities", PyVal.pyList
       [PyVal.pyStr "Morning: Explore the city center and main attractions",
        PyVal.pyStr "Lunch: Try local cuisine at a recommended restaurant",
        PyVal.pyStr "Afternoon: Visit museums or cultural sites",
        PyVal.pyStr "Evening: Enjoy dinner and local nightlife"]),
     ("lat", PyVal.pyNum 0),
     ("lng", PyVal.pyNum 0),
     ("distance_from_start", PyVal.pyNum 0),
     ("estimated_cost", PyVal.pyStr "€50-100 per person"),
     ("weather_note", PyVal.pyStr "Check local weather conditions")]

/-- The `for i, date in enumerate(travel_dates)` loop building the fallback
plan list. -/
def fallbackPlanAux (fmt : String → String) : Nat → List String → List PyVal
  | _, [] => []
  | i, d :: rest => fallbackDayJson fmt i d :: fallbackPlanAux fmt (i + 1) rest

namespace LLMService

/-- `LLMService._create_fallback_itinerary`: one templated day per travel
date plus a summary block.  The function is total: it never raises. -/
def create_fallback_itinerary (fmt : String → String) (travel_dates : List String) : PyVal :=
  PyVal.pyDict
    [("plan", PyVal.pyList (fallbackPlanAux fmt 0 travel_dates)),
     ("summary", PyVal.pyDict
       [("total_estimated_cost", PyVal.pyStr
          ("€" ++ toString (50 * travel_dates.length) ++ "-"
             ++ toString (100 * travel_dates.length) ++ " per person")),
        ("best_season", PyVal.pyStr "Year-round"),
        ("recommended_duration", PyVal.pyStr (toString travel_dates.length ++ " days")),
        ("difficulty_level", PyVal.pyStr "Moderate"),
        ("transportation_tips", PyVal.pyStr "Use public transportation or walking"),
        ("cultural_notes", PyVal.pyStr "Respect local customs and traditions")])]

/-- The `for attempt in range(self.max_retries + 1)` loop of
`_generate_with_retries`, with `fuel` counting the attempts still allowed
and `attempt` the index of the next one.  A backend exception or a `None`
from the parser moves on to the next attempt (or, when none remain, falls
through to the fallback); a validated parse returns immediately. -/
def generate_with_retries_loop (aggressive : String → String) (fmt : String → String)
    (oracle : Nat → Except String String) (travel_dates : List String) :
    Nat → Nat → PyVal
  | _, 0 => create_fallback_itinerary fmt travel_dates
  | attempt, fuel + 1 =>
    match oracle attempt with
    | Except.error _ => generate_with_retries_loop aggressive fmt oracle travel_dates (attempt + 1) fuel
    | Except.ok raw =>
      match parse_llm_response_with_validation aggressive raw travel_dates with
      | some p => p
      | none => generate_with_retries_loop aggressive fmt oracle travel_dates (attempt + 1) fuel

/-- `LLMService._generate_with_retries`: up to `max_retries + 1` attempts
(the constructor sets `max_retries = 3`, hence 4), then the deterministic
fallback. -/
def generate_with_retries (aggressive : String → String) (fmt : String → String)
    (oracle : Nat → Except String String) (max_retries : Nat)
    (travel_dates : List String) : PyVal :=
  generate_with_retries_loop aggressive fmt oracle travel_dates 0 (max_retries + 1)

end LLMService

/-- Attempt `a` fails: the backend call raised, or the parse-and-validate
step returned `None`. -/
def AttemptFails (aggressive : String → String) (oracle : Nat → Except String String)
    (travel_dates : List String) (a : Nat) : Prop :=
  (∃ e, oracle a = Except.error e) ∨
    (∃ raw, oracle a = Except.ok raw ∧
      LLMService.parse_llm_response_with_validation aggressive raw travel_dates = none)

/-- Attempt `a` succeeds with result `r`. -/
def AttemptSucceeds (aggressive : String → String) (oracle : Nat → Except String String)
    (travel_dates : List String) (a : Nat) (r : PyVal) : Prop :=
  ∃ raw, oracle a = Except.ok raw ∧
    LLMService.parse_llm_response_with_validation aggressive raw travel_dates = some r

/-- The number of days in the `plan` field of an itinerary dict (0 when the
field is missing or not a list). -/
def planDayCount (itinerary : PyVal) : Nat :=
  match itinerary with
  | PyVal.pyDict kvs =>
    match jsonLookup kvs "plan" with
    | some (PyVal.pyList plan) => plan.length
    | _ => 0
  | _ => 0

/-! ## Cache-key canonicalisation

`CacheService._generate_hash` (app/services/cache_service.py, lines 88-97)
builds

    request_data = {"destination": destination,
                    "travel_dates": sorted(travel_dates),
                    "preferences": dict(sorted(preferences.items())),
                    "radius": radius}
    request_str = json.dumps(request_data, sort_keys=True)
    return hashlib.sha256(request_str.encode()).hexdigest()

SHA-256 is a fixed deterministic function of `request_str`, so the embedding
identifies the cache key with the canonicalised string that is hashed: two
requests receive the same digest exactly when they serialise to the same
string (equal strings always collide; for the distinguishing direction the
embedding reflects that the digest is content-addressed by this string). -/

/-- `json.dumps` string escaping for the characters that occur in this
code base's inputs (backslash and double quote). -/
def jsonEscape (s : String) : String :=
  String.mk (s.data.foldr
    (fun c acc =>
      if c = '"' then '\\' :: '"' :: acc
      else if c = '\\' then '\\' :: '\\' :: acc
      else c :: acc) [])

/-- A quoted, escaped JSON string literal. -/
def quoteStr (s : String) : String := "\"" ++ jsonEscape s ++ "\""

/-- Decimal rendering of a number for `json.dumps`.  The cache-key inputs
only ever contain integers (the radius); integral rationals print as Python
ints do. -/
def numRender (q : ℚ) : String :=
  if q.den = 1 then toString q.num else toString q.num ++ "/" ++ toString q.den

/-- Comma-space separated join, the default item separator of `json.dumps`. -/
def joinComma : List String → String
  | [] => ""
  | [x] => x
  | x :: rest => x ++ ", " ++ joinComma rest

/-- Sort object members by key, as `json.dumps(..., sort_keys=True)` does.
The values are already rendered, so sorting here commutes with rendering. -/
def sortPairsByKey (ps : List (String × String)) : List (String × String) :=
  List.insertionSort (fun a b => a.1 ≤ b.1) ps

/-- A value of the duck-typed preferences dict as it actually reaches
`_generate_hash`: the request model has `interests: List[str]`, and the
optional budget / group-size / accommodation hints are strings or numbers.
(Typing the payload this way keeps the embedding of `json.dumps` a plain
structural recursion.) -/
inductive PrefValue where
  | str : String → PrefValue
  | num : ℚ → PrefValue
  | strList : List String → PrefValue
  | nul : PrefValue
deriving DecidableEq

/-- `json.dumps` rendering of one preference value (lists keep the order
they were given in: `dumps` sorts only dict keys, never list elements). -/
def renderPrefValue : PrefValue → String
  | PrefValue.str s => quoteStr s
  | PrefValue.num q => numRender q
  | PrefValue.strList xs => "[" ++ joinComma (xs.map quoteStr) ++ "]"
  | PrefValue.nul => "null"

/-- `json.dumps` rendering of the preferences dict with keys sorted (the
composition of `dict(sorted(preferences.items()))` with `sort_keys=True`). -/
def renderPreferences (preferences : List (String × PrefValue)) : String :=
  "\x7b" ++ joinComma ((sortPairsByKey
      (preferences.map (fun p => (p.1, renderPrefValue p.2)))).map
    (fun p => quoteStr p.1 ++ ": " ++ p.2)) ++ "\x7d"

/-- Python `sorted` on strings: the sorted permutation under lexicographic
order (equal strings are indistinguishable, so stability is immaterial). -/
def pySortedStrings (l : List String) : List String :=
  List.insertionSort (· ≤ ·) l

namespace CacheService

/-- `CacheService._generate_hash`, embedded as the canonical string fed to
SHA-256 (see the section comment): travel dates are sorted, preference keys
are sorted by the `dict(sorted(...))` plus `sort_keys=True` combination, but
values — in particular the `interests` list — are serialised in the order
given.  The four fixed top-level keys are emitted in their sorted order
`destination < preferences < radius < travel_dates`. -/
def generate_hash (destination : String) (travel_dates : List String)
    (preferences : List (String × PrefValue)) (radius : ℚ) : String :=
  "\x7b" ++
    quoteStr "destination" ++ ": " ++ quoteStr destination ++ ", " ++
    quoteStr "preferences" ++ ": " ++ renderPreferences preferences ++ ", " ++
    quoteStr "radius" ++ ": " ++ numRender radius ++ ", " ++
    quoteStr "travel_dates" ++ ": " ++
      "[" ++ joinComma ((pySortedStrings travel_dates).map quoteStr) ++ "]" ++
  "\x7d"

end CacheService

/-! ## Day plans, geo-enrichment, and the route optimizer

Once a plan is accepted it flows through `LocationService` and
`RouteOptimizer` as a list of day dicts.  At this stage every day has the
fields below; keys a given revision does not set (for example `route` before
optimization) are represented by their neutral defaults.  Coordinates are
rationals; the haversine great-circle distance of
`app/utils/geography.py` is transcendental, so every function that the
source lets call `calculate_distance_km` is parametrised by
`dist : ℚ × ℚ → ℚ × ℚ → ℚ`. -/

/-- One day record of the plan as the services manipulate it. -/
structure DayPlan where
  day : Nat
  date : String
  formatted_date : String
  town : String
  place : String
  activities : List String
  lat : ℚ
  lng : ℚ
  distance_from_start : ℚ
  travel_distance_km : ℚ
  route : List (ℚ × ℚ)
  estimated_cost : String
  weather_note : String
deriving DecidableEq, Repr

instance : Inhabited DayPlan :=
  ⟨⟨0, "", "", "", "", [], 0, 0, 0, 0, [], "", ""⟩⟩

/-- The coordinate pair `(day['lat'], day['lng'])`. -/
def DayPlan.coords (d : DayPlan) : ℚ × ℚ := (d.lat, d.lng)

/-- Round half to even on integers, as Python's `round` does. -/
def roundHalfEven (q : ℚ) : ℤ :=
  let f := ⌊q⌋
  let r := q - (f : ℚ)
  if r < 1 / 2 then f
  else if 1 / 2 < r then f + 1
  else if f % 2 = 0 then f else f + 1

/-- Python's `round(x, 1)`: round half to even at the first decimal. -/
def roundPy1 (q : ℚ) : ℚ := (roundHalfEven (10 * q) : ℚ) / 10

/-- The geocoding collaborators of `LocationService`
(app/external/google_maps.py), reduced to their observable behaviour: each
call returns a coordinate pair or nothing (`None`, provider miss, or an
exception caught by `_geocode_single`). -/
structure GeoOracle where
  geocode : String → String → Option (ℚ × ℚ)
  geocode_single_location : String → Option (ℚ × ℚ)

namespace LocationService

/-- `LocationService._find_coordinates` (location_service.py, lines 45-72):
strategies in order — geocode `(town, place)` when both are non-empty
(Python truthiness of the strings), geocode `place` alone, geocode `town`
alone, first nearby city, sentinel `(0, 0)`.  Strategy 4,
`_get_first_nearby_city`, is a stub whose body is `return None` in the
source, so it never succeeds. -/
def find_coordinates (g : GeoOracle) (day : DayPlan) : ℚ × ℚ :=
  match (if day.town ≠ "" ∧ day.place ≠ "" then g.geocode day.town day.place else none) with
  | some c => c
  | none =>
    match (if day.place ≠ "" then g.geocode_single_location day.place else none) with
    | some c => c
    | none =>
      match (if day.town ≠ "" then g.geocode_single_location day.town else none) with
      | some c => c
      | none => (0, 0)

/-- The per-day body of `enrich_and_validate_plan` (lines 24-41): resolve
coordinates, measure the distance from the start, store both.  The requested
radius is consulted only for the `status` log line, never to change the
coordinates. -/
def enrichDay (g : GeoOracle) (dist : ℚ × ℚ → ℚ × ℚ → ℚ) (start : ℚ × ℚ)
    (day : DayPlan) : DayPlan :=
  let c := find_coordinates g day
  { day with lat := c.1, lng := c.2, distance_from_start := roundPy1 (dist start c) }

/-- `LocationService.enrich_and_validate_plan`: enrich every day in order.
`radius_km` only feeds the log message. -/
def enrich_and_validate_plan (g : GeoOracle) (dist : ℚ × ℚ → ℚ × ℚ → ℚ)
    (start_coords : ℚ × ℚ) (days : List DayPlan) (radius_km : ℚ) : List DayPlan :=
  days.map (enrichDay g dist start_coords)

end LocationService

/-! ### Route optimizer (`app/services/route_optimizer.py`) -/

/-- Index and key value of the first minimiser of `f`, as Python's
`min(remaining, key=...)` selects it (earliest element on ties).  Only used
on non-empty lists; `([], _)` is a dead default. -/
def argminIdx (f : DayPlan → ℚ) : List DayPlan → Nat × ℚ
  | [] => (0, 0)
  | d :: rest =>
    match rest with
    | [] => (0, f d)
    | _ :: _ =>
      let p := argminIdx f rest
      if f d ≤ p.2 then (0, f d) else (p.1 + 1, p.2)

/-- The `while remaining:` selection loop of `optimize_route` (lines 63-78).
`first` records whether `optimized_route` is still empty (the first placed
day's `travel_distance_km` is the int literal `0`; later days get
`round(travel_distance, 1)`).  `remaining.remove(closest_day)` removes the
first dict equal to the chosen one; since equal dicts have equal
distance keys and `min` returns the earliest minimiser, that is exactly the
chosen position, here `eraseIdx`.  `fuel` bounds the loop; callers pass the
list length, which is exact. -/
def nnLoop (dist : ℚ × ℚ → ℚ × ℚ → ℚ) :
    Nat → ℚ × ℚ → Bool → List DayPlan → List DayPlan
  | 0, _, _, _ => []
  | _ + 1, _, _, [] => []
  | fuel + 1, cur, first, d :: rest =>
    let remaining := d :: rest
    let p := argminIdx (fun x => dist cur x.coords) remaining
    let chosen := remaining.getD p.1 default
    let td : ℚ := if first then 0 else roundPy1 (dist cur chosen.coords)
    { chosen with travel_distance_km := td } ::
      nnLoop dist fuel chosen.coords false (remaining.eraseIdx p.1)

/-- The annotation loop of lines 81-83: renumber days `1..N` and give each
day the cumulative trail of coordinates placed so far (`full` is the whole
ordered route, whose `lat`/`lng` the loop reads). -/
def annotateAux (full : List DayPlan) : Nat → List DayPlan → List DayPlan
  | _, [] => []
  | i, d :: rest =>
    { d with day := i + 1, route := (full.take (i + 1)).map DayPlan.coords } ::
      annotateAux full (i + 1) rest

/-- Renumbering and route-trail annotation applied to the ordered output. -/
def annotateRoute (l : List DayPlan) : List DayPlan :=
  annotateAux l 0 l

namespace RouteOptimizer

/-- `RouteOptimizer.optimize_route`: inputs of at most one day are returned
unchanged; otherwise greedy nearest-neighbour ordering from the start
coordinates followed by renumbering and route annotation. -/
def optimize_route (dist : ℚ × ℚ → ℚ × ℚ → ℚ) (start_coords : ℚ × ℚ)
    (days : List DayPlan) : List DayPlan :=
  if days.length ≤ 1 then days
  else annotateRoute (nnLoop dist days.length start_coords true days)

end RouteOptimizer

/-! ### Simple fallback plan (`LLMService._create_simple_fallback_plan`,
llm_service.py lines 370-420) -/

/-- The default city rotation used when no nearby cities are known. -/
def defaultFallbackCities : List String := ["Local Area", "City Center", "Downtown"]

/-- The templated activities for a fallback day in the given city. -/
def fallbackActivities (city : String) : List String :=
  ["Morning: Explore " ++ city ++ " historic center and main attractions",
   "Lunch: Try traditional local cuisine in " ++ city,
   "Afternoon: Visit cultural sites and museums in " ++ city,
   "Evening: Experience " ++ city ++ " local atmosphere and dining"]

/-- The `seen`-set deduplication of lines 381-386: keep the first occurrence
of each city, preserving order. -/
def pyUniqueAux : List String → List String → List String
  | _, [] => []
  | seen, c :: rest =>
    if c ∈ seen then pyUniqueAux seen rest
    else c :: pyUniqueAux (c :: seen) rest

/-- Order-preserving deduplication (first occurrences). -/
def pyUnique (l : List String) : List String := pyUniqueAux [] l

/-- One fallback day: city `i % len(unique_cities)` of the rotation, with
templated text.  The source dict carries no `travel_distance_km`/`route`
keys; their defaults stand for the absent keys. -/
def simpleFallbackDay (fmt : String → String) (uniq : List String) (lat lng : ℚ)
    (i : Nat) (date : String) : DayPlan :=
  let city := uniq.getD (i % uniq.length) ""
  { day := i + 1
    date := date
    formatted_date := fmt date
    town := city
    place := city ++ " Center"
    activities := fallbackActivities city
    lat := lat
    lng := lng
    distance_from_start := 0
    travel_distance_km := 0
    route := []
    estimated_cost := "€50-100 per person"
    weather_note := "Check local weather conditions" }

/-- The `for i, date in enumerate(request.travel_dates)` loop. -/
def simpleFallbackAux (fmt : String → String) (uniq : List String) (lat lng : ℚ) :
    Nat → List String → List DayPlan
  | _, [] => []
  | i, d :: rest =>
    simpleFallbackDay fmt uniq lat lng i d :: simpleFallbackAux fmt uniq lat lng (i + 1) rest

namespace LLMService

/-- `LLMService._create_simple_fallback_plan`: substitute the default city
list when `nearby_cities` is empty, deduplicate preserving order, then build
one templated day per travel date, rotating through the unique cities.  The
function is total — the source's enclosing `try/except` has nothing to
catch for the inputs modelled here. -/
def create_simple_fallback_plan (fmt : String → String) (travel_dates : List String)
    (nearby_cities : List String) (lat lng : ℚ) : List DayPlan :=
  let cities := if nearby_cities.isEmpty then defaultFallbackCities else nearby_cities
  let uniq := pyUnique cities
  simpleFallbackAux fmt uniq lat lng 0 travel_dates

end LLMService

/-! ### Enrich-and-optimize (`ItineraryService._enrich_and_optimize_plan`,
itinerary_service.py lines 127-146) -/

/-- The date-rewriting loop of lines 140-143: days at an index with a
requested date get that date (and its formatting); any surplus days keep
what they had. -/
def updateDatesAux (fmt : String → String) (dates : List String) :
    Nat → List DayPlan → List DayPlan
  | _, [] => []
  | i, d :: rest =>
    (if i < dates.length then
       { d with date := dates.getD i "", formatted_date := fmt (dates.getD i "") }
     else d) :: updateDatesAux fmt dates (i + 1) rest

namespace ItineraryService

/-- `ItineraryService._enrich_and_optimize_plan`: geo-enrich, optimize the
route when more than one day, rewrite the dates of the first
`len(sorted_dates)` days.  No day is ever added or removed. -/
def enrich_and_optimize_plan (g : GeoOracle) (dist : ℚ × ℚ → ℚ × ℚ → ℚ)
    (fmt : String → String) (lat lng : ℚ) (raw_plan : List DayPlan)
    (radius : ℚ) (sorted_dates : List String) : List DayPlan :=
  let enriched := LocationService.enrich_and_validate_plan g dist (lat, lng) raw_plan radius
  let routed :=
    if 1 < enriched.length then RouteOptimizer.optimize_route dist (lat, lng) enriched
    else enriched
  updateDatesAux fmt sorted_dates 0 routed

end ItineraryService

/-!
# Theorems

Helper lemmas come first, then one theorem per claim (with witnesses and
counterexamples where called for).
-/

/-- The projection of a day plan onto the fields the optimizer never writes:
everything except `day`, `route` and `travel_distance_km`.  Two days agree
on `stopCore` exactly when they describe the same stop. -/
def stopCore (d : DayPlan) :
    String × String × String × String × List String × ℚ × ℚ × ℚ × String × String :=
  (d.date, d.formatted_date, d.town, d.place, d.activities, d.lat, d.lng,
   d.distance_from_start, d.estimated_cost, d.weather_note)

theorem stopCore_set_travel (d : DayPlan) (t : ℚ) :
    stopCore { d with travel_distance_km := t } = stopCore d := rfl

theorem getD_cons_eraseIdx_perm {α : Type} [Inhabited α] :
    ∀ (l : List α) (i : Nat), i < l.length → (l.getD i default :: l.eraseIdx i).Perm l
  | [], i, h => by simp at h
  | a :: t, 0, _ => by simp [List.eraseIdx]
  | a :: t, i + 1, h => by
    have ht : i < t.length := by simpa using Nat.lt_of_succ_lt_succ h
    have ih := getD_cons_eraseIdx_perm t i ht
    simp only [List.getD_cons_succ, List.eraseIdx_cons_succ]
    exact (List.Perm.swap _ _ _).trans (ih.cons a)

theorem argminIdx_cons_cons (f : DayPlan → ℚ) (d e : DayPlan) (rest : List DayPlan) :
    argminIdx f (d :: e :: rest) =
      if f d ≤ (argminIdx f (e :: rest)).2 then (0, f d)
      else ((argminIdx f (e :: rest)).1 + 1, (argminIdx f (e :: rest)).2) := rfl

theorem argminIdx_lt (f : DayPlan → ℚ) :
    ∀ (l : List DayPlan), l ≠ [] → (argminIdx f l).1 < l.length := by
  intro l
  induction l with
  | nil => intro h; exact absurd rfl h
  | cons d rest ih =>
    intro _
    cases rest with
    | nil => simp [argminIdx]
    | cons e rest2 =>
      rw [argminIdx_cons_cons]
      have ihr := ih (by simp)
      split
      · simp
      · simp only [List.length_cons] at ihr ⊢
        omega

theorem argminIdx_getD (f : DayPlan → ℚ) :
    ∀ (l : List DayPlan), l ≠ [] →
      f (l.getD (argminIdx f l).1 default) = (argminIdx f l).2 := by
  intro l
  induction l with
  | nil => intro h; exact absurd rfl h
  | cons d rest ih =>
    intro _
    cases rest with
    | nil => simp [argminIdx]
    | cons e rest2 =>
      rw [argminIdx_cons_cons]
      have ihr := ih (by simp)
      split
      · simp
      · simpa [List.getD_cons_succ] using ihr

theorem argminIdx_min (f : DayPlan → ℚ) :
    ∀ (l : List DayPlan), ∀ x ∈ l, (argminIdx f l).2 ≤ f x := by
  intro l
  induction l with
  | nil => intro x hx; simp at hx
  | cons d rest ih =>
    intro x hx
    cases rest with
    | nil =>
      rcases List.mem_singleton.mp hx with rfl
      simp [argminIdx]
    | cons e rest2 =>
      rw [argminIdx_cons_cons]
      rcases List.mem_cons.mp hx with rfl | hx2
      · split
        · simp
        · next hle =>
          exact le_of_lt (by simpa using lt_of_not_le hle)
      · split
        · next hle => exact le_trans (by simpa using hle) (ih x hx2)
        · simpa using ih x hx2

theorem nnLoop_cons (dist : ℚ × ℚ → ℚ × ℚ → ℚ) (fuel : Nat) (cur : ℚ × ℚ)
    (first : Bool) (d : DayPlan) (rest : List DayPlan) :
    nnLoop dist (fuel + 1) cur first (d :: rest) =
      { (d :: rest).getD (argminIdx (fun x => dist cur x.coords) (d :: rest)).1 default with
          travel_distance_km :=
            if first then 0
            else roundPy1 (dist cur
              ((d :: rest).getD (argminIdx (fun x => dist cur x.coords) (d :: rest)).1
                default).coords) } ::
        nnLoop dist fuel
          ((d :: rest).getD (argminIdx (fun x => dist cur x.coords) (d :: rest)).1
            default).coords
          false
          ((d :: rest).eraseIdx (argminIdx (fun x => dist cur x.coords) (d :: rest)).1) := rfl

theorem nnLoop_perm (dist : ℚ × ℚ → ℚ × ℚ → ℚ) :
    ∀ (fuel : Nat) (cur : ℚ × ℚ) (first : Bool) (remaining : List DayPlan),
      remaining.length ≤ fuel →
      ((nnLoop dist fuel cur first remaining).map stopCore).Perm (remaining.map stopCore)
  | 0, cur, first, remaining, h => by
    have : remaining = [] := List.eq_nil_of_length_eq_zero (Nat.le_zero.mp h)
    subst this
    simp [nnLoop]
  | fuel + 1, cur, first, [], _ => by simp [nnLoop]
  | fuel + 1, cur, first, d :: rest, h => by
    rw [nnLoop_cons]
    set l := d :: rest with hl
    set i := (argminIdx (fun x => dist cur x.coords) l).1 with hi
    have hidx : i < l.length := argminIdx_lt _ l (by simp [hl])
    have hlen : (l.eraseIdx i).length ≤ fuel := by
      rw [List.length_eraseIdx]
      simp only [hidx, if_true]
      have : l.length ≤ fuel + 1 := h
      omega
    have ih := nnLoop_perm dist fuel (l.getD i default).coords false (l.eraseIdx i) hlen
    have hperm := (getD_cons_eraseIdx_perm l i hidx).map stopCore
    rw [List.map_cons, stopCore_set_travel]
    refine (ih.cons _).trans ?_
    simpa using hperm

theorem annotateAux_length (full : List DayPlan) :
    ∀ (i : Nat) (l : List DayPlan), (annotateAux full i l).length = l.length
  | _, [] => by simp [annotateAux]
  | i, d :: rest => by simp [annotateAux, annotateAux_length full (i + 1) rest]

theorem annotateAux_map_stopCore (full : List DayPlan) :
    ∀ (i : Nat) (l : List DayPlan),
      (annotateAux full i l).map stopCore = l.map stopCore
  | _, [] => by simp [annotateAux]
  | i, d :: rest => by
    simp only [annotateAux, List.map_cons, annotateAux_map_stopCore full (i + 1) rest]
    rfl

theorem optimize_route_perm_stopCore (dist : ℚ × ℚ → ℚ × ℚ → ℚ)
    (start : ℚ × ℚ) (days : List DayPlan) :
    ((RouteOptimizer.optimize_route dist start days).map stopCore).Perm
      (days.map stopCore) := by
  unfold RouteOptimizer.optimize_route
  split
  · exact List.Perm.refl _
  · rw [annotateRoute, annotateAux_map_stopCore]
    exact nnLoop_perm dist days.length start true days (le_refl _)

theorem optimize_route_length (dist : ℚ × ℚ → ℚ × ℚ → ℚ) (start : ℚ × ℚ)
    (days : List DayPlan) :
    (RouteOptimizer.optimize_route dist start days).length = days.length := by
  have := (optimize_route_perm_stopCore dist start days).length_eq
  simpa using this

/-- Claim C6: for every start coordinate and every list of day plans, the
list returned by `optimize_route` is a permutation of its input — the same
multiset of stops, none created, none dropped.  Stops are compared on every
field the optimizer does not annotate (`stopCore`); the annotations `day`,
`route` and `travel_distance_km` are the optimizer's own bookkeeping.  The
distance function is arbitrary, so the statement covers the haversine
instance the source uses. -/
theorem C6_optimize_route_is_permutation (dist : ℚ × ℚ → ℚ × ℚ → ℚ)
    (start : ℚ × ℚ) (days : List DayPlan) :
    ((RouteOptimizer.optimize_route dist start days).map stopCore).Perm
      (days.map stopCore) :=
  optimize_route_perm_stopCore dist start days

theorem map_getD {α β : Type} [Inhabited α] [Inhabited β] (f : α → β) :
    ∀ (l : List α) (i : Nat), i < l.length →
      (l.map f).getD i default = f (l.getD i default)
  | [], i, h => by simp at h
  | a :: t, 0, _ => by simp
  | a :: t, i + 1, h => by
    have ht : i < t.length := by simpa using Nat.lt_of_succ_lt_succ h
    simpa using map_getD f t i ht

/-- Claim C10: `enrich_and_validate_plan` returns a list of the same length
in the same order as its input (pointwise correspondence at every index),
and at each position rewrites only `lat`, `lng` and `distance_from_start` —
every other field of every day is returned unchanged. -/
theorem C10_enrich_frame (g : GeoOracle) (dist : ℚ × ℚ → ℚ × ℚ → ℚ)
    (start : ℚ × ℚ) (radius : ℚ) (days : List DayPlan) :
    (LocationService.enrich_and_validate_plan g dist start days radius).length
        = days.length ∧
    ∀ i, i < days.length →
      ((LocationService.enrich_and_validate_plan g dist start days radius).getD i
          default).day = (days.getD i default).day ∧
      ((LocationService.enrich_and_validate_plan g dist start days radius).getD i
          default).date = (days.getD i default).date ∧
      ((LocationService.enrich_and_validate_plan g dist start days radius).getD i
          default).formatted_date = (days.getD i default).formatted_date ∧
      ((LocationService.enrich_and_validate_plan g dist start days radius).getD i
          default).town = (days.getD i default).town ∧
      ((LocationService.enrich_and_validate_plan g dist start days radius).getD i
          default).place = (days.getD i default).place ∧
      ((LocationService.enrich_and_validate_plan g dist start days radius).getD i
          default).activities = (days.getD i default).activities ∧
      ((LocationService.enrich_and_validate_plan g dist start days radius).getD i
          default).travel_distance_km = (days.getD i default).travel_distance_km ∧
      ((LocationService.enrich_and_validate_plan g dist start days radius).getD i
          default).route = (days.getD i default).route ∧
      ((LocationService.enrich_and_validate_plan g dist start days radius).getD i
          default).estimated_cost = (days.getD i default).estimated_cost ∧
      ((LocationService.enrich_and_validate_plan g dist start days radius).getD i
          default).weather_note = (days.getD i default).weather_note := by
  constructor
  · simp [LocationService.enrich_and_validate_plan]
  · intro i h
    unfold LocationService.enrich_and_validate_plan
    rw [map_getD _ days i h]
    exact ⟨rfl, rfl, rfl, rfl, rfl, rfl, rfl, rfl, rfl, rfl⟩

/-- A geocoding oracle for which every lookup fails. -/
def gNone : GeoOracle := ⟨fun _ _ => none, fun _ => none⟩

/-- A degenerate distance function for concrete instantiations. -/
def dist0 : ℚ × ℚ → ℚ × ℚ → ℚ := fun _ _ => 0

/-- A fully populated concrete day record for witnesses. -/
def sampleDay : DayPlan :=
  { day := 7
    date := "2025-06-15"
    formatted_date := "June 15, 2025"
    town := "Berlin"
    place := "Museum Island"
    activities := ["Morning walk", "Museum visit"]
    lat := 1
    lng := 2
    distance_from_start := 3
    travel_distance_km := 4
    route := [(1, 2)]
    estimated_cost := "€50"
    weather_note := "sunny" }

theorem C10_enrich_frame_witness :
    ((LocationService.enrich_and_validate_plan gNone dist0 (0, 0) [sampleDay] 50).getD 0
        default).town = ([sampleDay].getD 0 default).town ∧
    ((LocationService.enrich_and_validate_plan gNone dist0 (0, 0) [sampleDay] 50).getD 0
        default).activities = ([sampleDay].getD 0 default).activities :=
  ⟨(((C10_enrich_frame gNone dist0 (0, 0) 50 [sampleDay]).2 0 (by decide)).2.2.2.1),
   (((C10_enrich_frame gNone dist0 (0, 0) 50 [sampleDay]).2 0 (by decide)).2.2.2.2.2.1)⟩

theorem updateDatesAux_length (fmt : String → String) (dates : List String) :
    ∀ (i : Nat) (l : List DayPlan), (updateDatesAux fmt dates i l).length = l.length
  | _, [] => by simp [updateDatesAux]
  | i, d :: rest => by
    simp [updateDatesAux, updateDatesAux_length fmt dates (i + 1) rest]

/-- Claim C2, counterexample to the claim as stated: a parsed plan with two
day records passes `_validate_itinerary_structure` for a single requested
travel date (the length comparison in the source only logs), and the
enrich-and-optimize step returns both days — the validated plan is not
truncated to the requested count, so the returned plan has 2 ≠ 1 entries. -/
theorem C2_counterexample_no_truncation :
    LLMService.validate_itinerary_structure
        (PyVal.pyDict [("plan", PyVal.pyList
          [PyVal.pyDict [("day", PyVal.pyNum 1), ("date", PyVal.pyStr "2025-06-15"),
                     ("town", PyVal.pyStr "Berlin"), ("place", PyVal.pyStr "Museum Island"),
                     ("activities", PyVal.pyList [PyVal.pyStr "walk"])],
           PyVal.pyDict [("day", PyVal.pyNum 2), ("date", PyVal.pyStr "2025-06-16"),
                     ("town", PyVal.pyStr "Potsdam"), ("place", PyVal.pyStr "Sanssouci"),
                     ("activities", PyVal.pyList [PyVal.pyStr "tour"])]])])
        ["2025-06-15"] = true ∧
    (ItineraryService.enrich_and_optimize_plan gNone dist0 id 0 0
        [sampleDay, sampleDay] 50 ["2025-06-15"]).length = 2 ∧
    (ItineraryService.enrich_and_optimize_plan gNone dist0 id 0 0
        [sampleDay, sampleDay] 50 ["2025-06-15"]).length
      ≠ List.length ["2025-06-15"] := by
  refine ⟨rfl, rfl, ?_⟩
  decide

/-- Claim C2, amended: the controller performs no day-count reconciliation
at all.  The enrich-and-optimize step preserves the generated plan's day
count exactly — a validated plan with more days than requested dates is
returned in full (only the date fields of the first `len(dates)` entries are
rewritten), and a too-short plan is not padded.  Day count equals the number
of requested dates only when the generated or fallback plan already has that
many days. -/
theorem C2_enrich_and_optimize_preserves_day_count (g : GeoOracle)
    (dist : ℚ × ℚ → ℚ × ℚ → ℚ) (fmt : String → String) (lat lng : ℚ)
    (raw_plan : List DayPlan) (radius : ℚ) (sorted_dates : List String) :
    (ItineraryService.enrich_and_optimize_plan g dist fmt lat lng raw_plan radius
        sorted_dates).length = raw_plan.length := by
  unfold ItineraryService.enrich_and_optimize_plan
  rw [updateDatesAux_length]
  split
  · rw [optimize_route_length]
    simp [LocationService.enrich_and_validate_plan]
  · simp [LocationService.enrich_and_validate_plan]

/-- Claim C8: the geo-enricher never substitutes a fabricated in-radius
coordinate.  (1) The enriched output does not depend on the requested radius
at all — the radius feeds only a log line, so an out-of-radius day keeps its
real coordinate; (2) each output day's `lat`/`lng` is exactly the resolved
coordinate of `_find_coordinates` regardless of its distance from the start;
(3) the sentinel `(0, 0)` is assigned exactly on the fall-through where
every geocoding strategy has failed (strategy 4, the nearby-city fallback,
is `return None` in the source and never succeeds); (4) a successful first
strategy short-circuits to its real result. -/
theorem C8_enricher_keeps_real_coordinates (g : GeoOracle)
    (dist : ℚ × ℚ → ℚ × ℚ → ℚ) (start : ℚ × ℚ) (radius radius2 : ℚ)
    (days : List DayPlan) :
    LocationService.enrich_and_validate_plan g dist start days radius
        = LocationService.enrich_and_validate_plan g dist start days radius2 ∧
    (∀ i, i < days.length →
      ((LocationService.enrich_and_validate_plan g dist start days radius).getD i
          default).lat = (LocationService.find_coordinates g (days.getD i default)).1 ∧
      ((LocationService.enrich_and_validate_plan g dist start days radius).getD i
          default).lng = (LocationService.find_coordinates g (days.getD i default)).2) ∧
    (∀ day : DayPlan,
      (day.town ≠ "" ∧ day.place ≠ "" → g.geocode day.town day.place = none) →
      (day.place ≠ "" → g.geocode_single_location day.place = none) →
      (day.town ≠ "" → g.geocode_single_location day.town = none) →
      LocationService.find_coordinates g day = (0, 0)) ∧
    (∀ (day : DayPlan) (c : ℚ × ℚ),
      day.town ≠ "" → day.place ≠ "" → g.geocode day.town day.place = some c →
      LocationService.find_coordinates g day = c) := by
  refine ⟨rfl, ?_, ?_, ?_⟩
  · intro i h
    unfold LocationService.enrich_and_validate_plan
    rw [map_getD _ days i h]
    exact ⟨rfl, rfl⟩
  · intro day h1 h2 h3
    unfold LocationService.find_coordinates
    have e1 : (if day.town ≠ "" ∧ day.place ≠ "" then g.geocode day.town day.place
        else none) = none := by
      split
      · next hc => exact h1 hc
      · rfl
    have e2 : (if day.place ≠ "" then g.geocode_single_location day.place
        else none) = none := by
      split
      · next hc => exact h2 hc
      · rfl
    have e3 : (if day.town ≠ "" then g.geocode_single_location day.town
        else none) = none := by
      split
      · next hc => exact h3 hc
      · rfl
    rw [e1, e2, e3]
  · intro day c ht hp hsome
    unfold LocationService.find_coordinates
    rw [if_pos ⟨ht, hp⟩, hsome]

theorem C8_enricher_keeps_real_coordinates_witness :
    LocationService.find_coordinates gNone sampleDay = (0, 0) ∧
    ((LocationService.enrich_and_validate_plan gNone dist0 (0, 0) [sampleDay] 50).getD 0
        default).lat = (LocationService.find_coordinates gNone sampleDay).1 :=
  ⟨(C8_enricher_keeps_real_coordinates gNone dist0 (0, 0) 50 50 [sampleDay]).2.2.1
      sampleDay (fun _ => rfl) (fun _ => rfl) (fun _ => rfl),
   ((C8_enricher_keeps_real_coordinates gNone dist0 (0, 0) 50 50 [sampleDay]).2.1 0
      (by decide)).1⟩

/-- The deduplicated, order-preserving city rotation used by the simple
fallback plan (defaults substituted when no nearby cities are known). -/
def fallbackUniqueCities (nearby_cities : List String) : List String :=
  pyUnique (if nearby_cities.isEmpty then defaultFallbackCities else nearby_cities)

theorem create_simple_fallback_plan_eq (fmt : String → String)
    (travel_dates nearby_cities : List String) (lat lng : ℚ) :
    LLMService.create_simple_fallback_plan fmt travel_dates nearby_cities lat lng
      = simpleFallbackAux fmt (fallbackUniqueCities nearby_cities) lat lng 0
          travel_dates := rfl

theorem pyUniqueAux_nodup :
    ∀ (l seen : List String),
      (pyUniqueAux seen l).Nodup ∧ ∀ x ∈ pyUniqueAux seen l, x ∉ seen
  | [], seen => ⟨List.nodup_nil, by intro x hx; simp [pyUniqueAux] at hx⟩
  | c :: rest, seen => by
    by_cases hc : c ∈ seen
    · have ih := pyUniqueAux_nodup rest seen
      simpa [pyUniqueAux, hc] using ih
    · have ih := pyUniqueAux_nodup rest (c :: seen)
      simp only [pyUniqueAux, hc, if_false]
      constructor
      · refine List.Nodup.cons ?_ ih.1
        intro hmem
        exact (ih.2 c hmem) (List.mem_cons_self c seen)
      · intro x hx
        rcases List.mem_cons.mp hx with rfl | hx2
        · exact hc
        · intro hxs
          exact (ih.2 x hx2) (List.mem_cons_of_mem c hxs)

theorem pyUnique_nodup (l : List String) : (pyUnique l).Nodup :=
  (pyUniqueAux_nodup l []).1

theorem simpleFallbackAux_length (fmt : String → String) (uniq : List String)
    (lat lng : ℚ) :
    ∀ (i : Nat) (ds : List String),
      (simpleFallbackAux fmt uniq lat lng i ds).length = ds.length
  | _, [] => by simp [simpleFallbackAux]
  | i, d :: rest => by
    simp [simpleFallbackAux, simpleFallbackAux_length fmt uniq lat lng (i + 1) rest]

theorem simpleFallbackAux_getD (fmt : String → String) (uniq : List String)
    (lat lng : ℚ) :
    ∀ (i k : Nat) (ds : List String), k < ds.length →
      (simpleFallbackAux fmt uniq lat lng i ds).getD k default
        = simpleFallbackDay fmt uniq lat lng (i + k) (ds.getD k "")
  | i, k, [], h => by simp at h
  | i, 0, d :: rest, _ => by simp [simpleFallbackAux]
  | i, k + 1, d :: rest, h => by
    have hk : k < rest.length := by simpa using Nat.lt_of_succ_lt_succ h
    have ih := simpleFallbackAux_getD fmt uniq lat lng (i + 1) k rest hk
    simp only [simpleFallbackAux, List.getD_cons_succ]
    rw [ih]
    congr 1
    omega

theorem mod_succ_ne_of_two_le (n i : Nat) (h : 2 ≤ n) : i % n ≠ (i + 1) % n := by
  have h0 : 0 < n := by omega
  have h1 : (i + 1) % n = (i % n + 1) % n := by
    conv_lhs => rw [Nat.add_mod]
    rw [Nat.mod_eq_of_lt (show 1 < n by omega)]
  have hr : i % n < n := Nat.mod_lt _ h0
  intro heq
  rw [h1] at heq
  by_cases hlt : i % n + 1 < n
  · rw [Nat.mod_eq_of_lt hlt] at heq
    omega
  · have : i % n + 1 = n := by omega
    rw [this, Nat.mod_self] at heq
    omega

theorem nodup_getD_inj (l : List String) (hnd : l.Nodup) (a b : Nat)
    (ha : a < l.length) (hb : b < l.length)
    (heq : l.getD a "" = l.getD b "") : a = b := by
  rw [List.getD_eq_getElem _ _ ha, List.getD_eq_getElem _ _ hb] at heq
  have := (List.Nodup.get_inj_iff hnd (i := ⟨a, ha⟩) (j := ⟨b, hb⟩)).mp
    (by simpa [List.get_eq_getElem] using heq)
  simpa using congrArg Fin.val this

/-- Claim C9: the deterministic simple fallback plan is a total function
that builds exactly one day entry per requested travel date; day `i` is
assigned city `i mod n` of the de-duplicated, order-preserving city rotation
(`n` its length), carries that city in its `town`, a `place` and templated
activity texts referencing it, and consecutive days get different cities
whenever the rotation holds at least two distinct cities. -/
theorem C9_simple_fallback_plan (fmt : String → String)
    (travel_dates nearby_cities : List String) (lat lng : ℚ) :
    (LLMService.create_simple_fallback_plan fmt travel_dates nearby_cities lat
        lng).length = travel_dates.length ∧
    (∀ i, i < travel_dates.length →
      ((LLMService.create_simple_fallback_plan fmt travel_dates nearby_cities lat
          lng).getD i default).day = i + 1 ∧
      ((LLMService.create_simple_fallback_plan fmt travel_dates nearby_cities lat
          lng).getD i default).date = travel_dates.getD i "" ∧
      ((LLMService.create_simple_fallback_plan fmt travel_dates nearby_cities lat
          lng).getD i default).town
        = (fallbackUniqueCities nearby_cities).getD
            (i % (fallbackUniqueCities nearby_cities).length) "" ∧
      ((LLMService.create_simple_fallback_plan fmt travel_dates nearby_cities lat
          lng).getD i default).place
        = ((LLMService.create_simple_fallback_plan fmt travel_dates nearby_cities lat
            lng).getD i default).town ++ " Center" ∧
      ((LLMService.create_simple_fallback_plan fmt travel_dates nearby_cities lat
          lng).getD i default).activities
        = fallbackActivities
            (((LLMService.create_simple_fallback_plan fmt travel_dates nearby_cities
                lat lng).getD i default).town)) ∧
    (∀ i, i + 1 < travel_dates.length →
      2 ≤ (fallbackUniqueCities nearby_cities).length →
      ((LLMService.create_simple_fallback_plan fmt travel_dates nearby_cities lat
          lng).getD i default).town
        ≠ ((LLMService.create_simple_fallback_plan fmt travel_dates nearby_cities lat
            lng).getD (i + 1) default).town) := by
  refine ⟨?_, ?_, ?_⟩
  · rw [create_simple_fallback_plan_eq]
    exact simpleFallbackAux_length fmt _ lat lng 0 travel_dates
  · intro i h
    rw [create_simple_fallback_plan_eq,
      simpleFallbackAux_getD fmt _ lat lng 0 i travel_dates h]
    simp only [Nat.zero_add]
    exact ⟨rfl, rfl, rfl, rfl, rfl⟩
  · intro i h h2
    have hi : i < travel_dates.length := by omega
    have hi1 : i + 1 < travel_dates.length := h
    rw [create_simple_fallback_plan_eq,
      simpleFallbackAux_getD fmt _ lat lng 0 i travel_dates hi,
      simpleFallbackAux_getD fmt _ lat lng 0 (i + 1) travel_dates hi1]
    simp only [Nat.zero_add]
    show (fallbackUniqueCities nearby_cities).getD
        (i % (fallbackUniqueCities nearby_cities).length) ""
      ≠ (fallbackUniqueCities nearby_cities).getD
        ((i + 1) % (fallbackUniqueCities nearby_cities).length) ""
    intro heq
    have hn : 0 < (fallbackUniqueCities nearby_cities).length := by omega
    have hmoda : i % (fallbackUniqueCities nearby_cities).length
        < (fallbackUniqueCities nearby_cities).length := Nat.mod_lt _ hn
    have hmodb : (i + 1) % (fallbackUniqueCities nearby_cities).length
        < (fallbackUniqueCities nearby_cities).length := Nat.mod_lt _ hn
    have := nodup_getD_inj (fallbackUniqueCities nearby_cities)
      (pyUnique_nodup _) _ _ hmoda hmodb heq
    exact mod_succ_ne_of_two_le _ i h2 this

theorem C9_simple_fallback_plan_witness :
    (LLMService.create_simple_fallback_plan id ["2025-06-15", "2025-06-16"]
        ["Potsdam", "Leipzig", "Potsdam"] 1 2).length = 2 ∧
    ((LLMService.create_simple_fallback_plan id ["2025-06-15", "2025-06-16"]
        ["Potsdam", "Leipzig", "Potsdam"] 1 2).getD 0 default).town
      ≠ ((LLMService.create_simple_fallback_plan id ["2025-06-15", "2025-06-16"]
          ["Potsdam", "Leipzig", "Potsdam"] 1 2).getD 1 default).town :=
  ⟨(C9_simple_fallback_plan id ["2025-06-15", "2025-06-16"]
      ["Potsdam", "Leipzig", "Potsdam"] 1 2).1,
   (C9_simple_fallback_plan id ["2025-06-15", "2025-06-16"]
      ["Potsdam", "Leipzig", "Potsdam"] 1 2).2.2 0 (by decide) (by decide)⟩

theorem pySortedStrings_sorted (l : List String) :
    List.Sorted (· ≤ ·) (pySortedStrings l) :=
  List.sorted_insertionSort (· ≤ ·) l

theorem pySortedStrings_perm_congr {l₁ l₂ : List String} (h : l₁.Perm l₂) :
    pySortedStrings l₁ = pySortedStrings l₂ :=
  List.eq_of_perm_of_sorted
    (((List.perm_insertionSort _ l₁).trans h).trans
      (List.perm_insertionSort _ l₂).symm)
    (pySortedStrings_sorted l₁) (pySortedStrings_sorted l₂)

/-- Claim C3, amended: the cache key is invariant under reordering of the
travel dates (the source sorts them before serialising), for any destination,
preferences dict and radius.  Reordering the interest tags inside the
preferences is NOT invariant — see the counterexample — because
`_generate_hash` sorts only dict keys, never the `interests` list value; the
interest-sorting `RequestSignature._normalize_preferences` helper is dead
code. -/
theorem C3_cache_key_invariant_under_date_order (destination : String)
    (preferences : List (String × PrefValue)) (radius : ℚ)
    (dates₁ dates₂ : List String) (h : dates₁.Perm dates₂) :
    CacheService.generate_hash destination dates₁ preferences radius
      = CacheService.generate_hash destination dates₂ preferences radius := by
  unfold CacheService.generate_hash
  rw [pySortedStrings_perm_congr h]

theorem C3_cache_key_invariant_under_date_order_witness :
    CacheService.generate_hash "Lat: 52.52, Lng: 13.405"
        ["2025-06-16", "2025-06-15"]
        [("interests", PrefValue.strList ["Food"])] 50
      = CacheService.generate_hash "Lat: 52.52, Lng: 13.405"
          ["2025-06-15", "2025-06-16"]
          [("interests", PrefValue.strList ["Food"])] 50 :=
  C3_cache_key_invariant_under_date_order "Lat: 52.52, Lng: 13.405"
    [("interests", PrefValue.strList ["Food"])] 50
    ["2025-06-16", "2025-06-15"] ["2025-06-15", "2025-06-16"] (by decide)

/-- Claim C3, counterexample to the claim as stated: two requests differing
only in the order of the preference interest tags produce different
canonical digest inputs (hence different SHA-256 cache keys): the
`interests` list is serialised in the order given, so the second request is
a cache miss, not a duplicate. -/
theorem C3_counterexample_interest_order :
    CacheService.generate_hash "Lat: 52.52, Lng: 13.405" ["2025-06-15"]
        [("interests", PrefValue.strList ["Food", "History"])] 50
      ≠ CacheService.generate_hash "Lat: 52.52, Lng: 13.405" ["2025-06-15"]
          [("interests", PrefValue.strList ["History", "Food"])] 50 := by
  decide

/-- The acceptance condition of the pipeline validator for one day record,
as a proposition. -/
def PipelineDayOk (d : PyVal) : Prop :=
  ∃ dkvs, d = PyVal.pyDict dkvs ∧
    (∀ f ∈ requiredDayFields, (jsonLookup dkvs f).isSome = true) ∧
    ∃ acts, jsonLookup dkvs "activities" = some (PyVal.pyList acts)

/-- The acceptance condition of the unused helper validator for one day
record, as a proposition. -/
def MinimalDayOk (d : PyVal) : Prop :=
  ∃ dkvs, d = PyVal.pyDict dkvs ∧
    (∀ f ∈ minimalDayFields, (jsonLookup dkvs f).isSome = true) ∧
    ∃ acts, jsonLookup dkvs "activities" = some (PyVal.pyList acts)

theorem isArrOption_iff (o : Option PyVal) :
    (match o with
      | some (PyVal.pyList _) => true
      | _ => false) = true ↔ ∃ xs, o = some (PyVal.pyList xs) := by
  cases o with
  | none => simp
  | some j => cases j <;> simp

theorem dayRecordOk_iff (d : PyVal) : dayRecordOk d = true ↔ PipelineDayOk d := by
  cases d <;> simp [dayRecordOk, PipelineDayOk, List.all_eq_true, isArrOption_iff]

theorem minimalDayOk_iff (d : PyVal) : minimalDayOk d = true ↔ MinimalDayOk d := by
  cases d <;> simp [minimalDayOk, MinimalDayOk, List.all_eq_true, isArrOption_iff]

/-- Claim C5, amended: the validator the pipeline actually runs
(`_validate_itinerary_structure`) accepts a parsed result iff it is a dict
whose `plan` field holds a list in which every element is a dict containing
`day`, `date`, `town`, `place` and `activities`, with `activities` a list;
the day-count is NOT bounded — a list longer than twice the expected day
count is accepted (the comparison in the source only logs), see the
counterexample.  The ‘at minimum `town`, `place`, `activities` and at most
twice the expected count’ rule holds only of the helper
`validate_parsed_plan` (app/utils/validators.py), which the new service
never calls; its acceptance condition is characterised by the second
equivalence. -/
theorem C5_structural_validation_characterisation :
    (∀ (parsed : PyVal) (travel_dates : List String),
      LLMService.validate_itinerary_structure parsed travel_dates = true ↔
        ∃ kvs plan, parsed = PyVal.pyDict kvs ∧
          jsonLookup kvs "plan" = some (PyVal.pyList plan) ∧
          ∀ d ∈ plan, PipelineDayOk d) ∧
    (∀ (plan : PyVal) (expected_days : Nat),
      validate_parsed_plan plan expected_days = true ↔
        ∃ days, plan = PyVal.pyList days ∧ days ≠ [] ∧
          days.length ≤ expected_days * 2 ∧ ∀ d ∈ days, MinimalDayOk d) := by
  constructor
  · intro parsed travel_dates
    cases parsed with
    | pyDict kvs =>
      rcases hlook : jsonLookup kvs "plan" with _ | j
      · simp [LLMService.validate_itinerary_structure, hlook]
      · cases j <;>
          simp [LLMService.validate_itinerary_structure, hlook,
            List.all_eq_true, dayRecordOk_iff]
    | pyNone => simp [LLMService.validate_itinerary_structure]
    | pyBool b => simp [LLMService.validate_itinerary_structure]
    | pyNum q => simp [LLMService.validate_itinerary_structure]
    | pyStr s => simp [LLMService.validate_itinerary_structure]
    | pyList xs => simp [LLMService.validate_itinerary_structure]
  · intro plan expected_days
    cases plan <;>
      simp [validate_parsed_plan, List.all_eq_true, minimalDayOk_iff,
        List.isEmpty_iff, and_assoc]

/-- A complete day record carrying all five required fields. -/
def fullDayJson : PyVal :=
  PyVal.pyDict [("day", PyVal.pyNum 1), ("date", PyVal.pyStr "2025-06-15"),
            ("town", PyVal.pyStr "Berlin"), ("place", PyVal.pyStr "Museum Island"),
            ("activities", PyVal.pyList [PyVal.pyStr "walk"])]

/-- Claim C5, counterexample to the claim as stated: a plan with three day
records for a single expected travel date — strictly more than twice the
expected count — is nevertheless accepted by the pipeline's structural
validation, which the claim says must reject it. -/
theorem C5_counterexample_length_not_bounded :
    LLMService.validate_itinerary_structure
        (PyVal.pyDict [("plan", PyVal.pyList [fullDayJson, fullDayJson, fullDayJson])])
        ["2025-06-15"] = true ∧
    planDayCount
        (PyVal.pyDict [("plan", PyVal.pyList [fullDayJson, fullDayJson, fullDayJson])]) = 3 ∧
    2 * List.length ["2025-06-15"] < 3 := by
  refine ⟨rfl, rfl, ?_⟩
  decide

/-- Claim C4 (divergence theorem): whenever the extracted JSON substring of a
raw generator response fails the direct parse, `_parse_llm_response_with_validation`
returns `None` — no repair strategy is ever applied.  Evaluating the
`repair_strategies` list display raises `NameError` at its first element
(`repair_json_basic` is unbound in the module scope: the star import of
`app.utils.json_repair` provides only `json`, `re` and `JSONRepairer`), and
the enclosing `except Exception` swallows it.  This holds for every
`aggressive` bound method and every input, contradicting the claimed
fixed-order strategy cascade. -/
theorem C4_repair_strategies_never_run (aggressive : String → String)
    (raw_response : String) (travel_dates : List String) (json_str : String)
    (hex : extractJson raw_response = some json_str)
    (hfail : jsonLoads json_str = none) :
    LLMService.parse_llm_response_with_validation aggressive raw_response
      travel_dates = none := by
  simp only [LLMService.parse_llm_response_with_validation, hex, hfail]
  rfl

theorem C4_repair_strategies_never_run_witness :
    extractJson "\x7b\"plan\": [],\x7d" = some "\x7b\"plan\": [],\x7d" ∧
    jsonLoads "\x7b\"plan\": [],\x7d" = none ∧
    LLMService.parse_llm_response_with_validation id "\x7b\"plan\": [],\x7d"
      ["2025-06-15"] = none :=
  ⟨by decide, rfl,
   C4_repair_strategies_never_run id "\x7b\"plan\": [],\x7d" ["2025-06-15"]
     "\x7b\"plan\": [],\x7d" (by decide) rfl⟩

theorem generate_with_retries_loop_succ (aggressive : String → String)
    (fmt : String → String) (oracle : Nat → Except String String)
    (travel_dates : List String) (a fuel : Nat) :
    LLMService.generate_with_retries_loop aggressive fmt oracle travel_dates a
        (fuel + 1) =
      match oracle a with
      | Except.error _ =>
        LLMService.generate_with_retries_loop aggressive fmt oracle travel_dates
          (a + 1) fuel
      | Except.ok raw =>
        match LLMService.parse_llm_response_with_validation aggressive raw
            travel_dates with
        | some p => p
        | none =>
          LLMService.generate_with_retries_loop aggressive fmt oracle travel_dates
            (a + 1) fuel := rfl

theorem parse_some_validates (aggressive : String → String) (raw : String)
    (travel_dates : List String) (p : PyVal)
    (h : LLMService.parse_llm_response_with_validation aggressive raw
        travel_dates = some p) :
    LLMService.validate_itinerary_structure p travel_dates = true := by
  rcases hex : extractJson raw with _ | js
  · simp only [LLMService.parse_llm_response_with_validation, hex] at h
    exact absurd h (by simp)
  · rcases hl : jsonLoads js with _ | parsed
    · simp only [LLMService.parse_llm_response_with_validation, hex, hl,
        buildRepairStrategies, llmServiceScopeFunction] at h
      exact absurd h (by simp)
    · simp only [LLMService.parse_llm_response_with_validation, hex, hl] at h
      by_cases hv : LLMService.validate_itinerary_structure parsed travel_dates = true
      · rw [if_pos hv] at h
        cases h
        exact hv
      · rw [if_neg hv] at h
        simp at h

theorem dayRecordOk_fallbackDayJson (fmt : String → String) (i : Nat) (d : String) :
    dayRecordOk (fallbackDayJson fmt i d) = true := rfl

theorem fallbackPlanAux_all (fmt : String → String) :
    ∀ (i : Nat) (ds : List String),
      (fallbackPlanAux fmt i ds).all dayRecordOk = true
  | _, [] => rfl
  | i, d :: rest => by
    simp only [fallbackPlanAux, List.all_cons, dayRecordOk_fallbackDayJson,
      Bool.true_and]
    exact fallbackPlanAux_all fmt (i + 1) rest

theorem validate_fallback_itinerary (fmt : String → String)
    (travel_dates : List String) :
    LLMService.validate_itinerary_structure
      (LLMService.create_fallback_itinerary fmt travel_dates) travel_dates = true := by
  unfold LLMService.create_fallback_itinerary LLMService.validate_itinerary_structure
  simp [jsonLookup]
  intro x hx
  exact List.all_eq_true.mp (fallbackPlanAux_all fmt 0 travel_dates) x hx

theorem fallbackPlanAux_length (fmt : String → String) :
    ∀ (i : Nat) (ds : List String), (fallbackPlanAux fmt i ds).length = ds.length
  | _, [] => rfl
  | i, d :: rest => by
    simp [fallbackPlanAux, fallbackPlanAux_length fmt (i + 1) rest]

theorem planDayCount_fallback (fmt : String → String) (travel_dates : List String) :
    planDayCount (LLMService.create_fallback_itinerary fmt travel_dates)
      = travel_dates.length := by
  unfold planDayCount LLMService.create_fallback_itinerary
  simp [jsonLookup]
  exact fallbackPlanAux_length fmt 0 travel_dates

theorem generate_with_retries_loop_spec (aggressive : String → String)
    (fmt : String → String) (oracle : Nat → Except String String)
    (travel_dates : List String) :
    ∀ (fuel a0 : Nat),
      (∃ k, k < fuel ∧
        (∀ j, j < k → AttemptFails aggressive oracle travel_dates (a0 + j)) ∧
        AttemptSucceeds aggressive oracle travel_dates (a0 + k)
          (LLMService.generate_with_retries_loop aggressive fmt oracle travel_dates
            a0 fuel)) ∨
      ((∀ j, j < fuel → AttemptFails aggressive oracle travel_dates (a0 + j)) ∧
        LLMService.generate_with_retries_loop aggressive fmt oracle travel_dates
            a0 fuel
          = LLMService.create_fallback_itinerary fmt travel_dates)
  | 0, a0 => Or.inr ⟨fun j hj => absurd hj (by omega), rfl⟩
  | fuel + 1, a0 => by
    rcases h : oracle a0 with e | raw
    · have hred : LLMService.generate_with_retries_loop aggressive fmt oracle
          travel_dates a0 (fuel + 1)
          = LLMService.generate_with_retries_loop aggressive fmt oracle
              travel_dates (a0 + 1) fuel := by
        rw [generate_with_retries_loop_succ, h]
      have hfail0 : AttemptFails aggressive oracle travel_dates a0 :=
        Or.inl ⟨e, h⟩
      rcases generate_with_retries_loop_spec aggressive fmt oracle travel_dates
          fuel (a0 + 1) with ⟨k, hk, hfails, hsucc⟩ | ⟨hall, heq⟩
      · refine Or.inl ⟨k + 1, by omega, ?_, ?_⟩
        · intro j hj
          rcases Nat.eq_zero_or_pos j with rfl | hpos
          · simpa using hfail0
          · have hf := hfails (j - 1) (by omega)
            have harith : a0 + 1 + (j - 1) = a0 + j := by omega
            rwa [harith] at hf
        · have harith : a0 + 1 + k = a0 + (k + 1) := by omega
          rw [hred]
          rwa [harith] at hsucc
      · refine Or.inr ⟨?_, by rw [hred, heq]⟩
        intro j hj
        rcases Nat.eq_zero_or_pos j with rfl | hpos
        · simpa using hfail0
        · have hf := hall (j - 1) (by omega)
          have harith : a0 + 1 + (j - 1) = a0 + j := by omega
          rwa [harith] at hf
    · rcases hp : LLMService.parse_llm_response_with_validation aggressive raw
          travel_dates with _ | p
      · have hred : LLMService.generate_with_retries_loop aggressive fmt oracle
            travel_dates a0 (fuel + 1)
            = LLMService.generate_with_retries_loop aggressive fmt oracle
                travel_dates (a0 + 1) fuel := by
          simp only [generate_with_retries_loop_succ, h, hp]
        have hfail0 : AttemptFails aggressive oracle travel_dates a0 :=
          Or.inr ⟨raw, h, hp⟩
        rcases generate_with_retries_loop_spec aggressive fmt oracle travel_dates
            fuel (a0 + 1) with ⟨k, hk, hfails, hsucc⟩ | ⟨hall, heq⟩
        · refine Or.inl ⟨k + 1, by omega, ?_, ?_⟩
          · intro j hj
            rcases Nat.eq_zero_or_pos j with rfl | hpos
            · simpa using hfail0
            · have hf := hfails (j - 1) (by omega)
              have harith : a0 + 1 + (j - 1) = a0 + j := by omega
              rwa [harith] at hf
          · have harith : a0 + 1 + k = a0 + (k + 1) := by omega
            rw [hred]
            rwa [harith] at hsucc
        · refine Or.inr ⟨?_, by rw [hred, heq]⟩
          intro j hj
          rcases Nat.eq_zero_or_pos j with rfl | hpos
          · simpa using hfail0
          · have hf := hall (j - 1) (by omega)
            have harith : a0 + 1 + (j - 1) = a0 + j := by omega
            rwa [harith] at hf
      · have hred : LLMService.generate_with_retries_loop aggressive fmt oracle
            travel_dates a0 (fuel + 1) = p := by
          simp only [generate_with_retries_loop_succ, h, hp]
        exact Or.inl ⟨0, by omega, fun j hj => absurd hj (by omega),
          ⟨raw, by simpa using h, by rw [hred]; simpa using hp⟩⟩

/-- Claim C1: `_generate_with_retries` never propagates a backend failure.
For every attempt oracle and any `max_retries`, the result is structurally
valid for the requested dates, and it is either the first validated plan
produced within the `max_retries + 1` attempts (all earlier attempts having
failed), or — when every attempt fails — exactly the deterministic fallback
plan, which carries one day per requested travel date.  The embedded
function is total: no exception reaches the caller. -/
theorem C1_generate_with_retries_valid_or_fallback (aggressive : String → String)
    (fmt : String → String) (oracle : Nat → Except String String)
    (max_retries : Nat) (travel_dates : List String) :
    LLMService.validate_itinerary_structure
        (LLMService.generate_with_retries aggressive fmt oracle max_retries
          travel_dates) travel_dates = true ∧
    ((∃ a, a ≤ max_retries ∧
        (∀ b, b < a → AttemptFails aggressive oracle travel_dates b) ∧
        AttemptSucceeds aggressive oracle travel_dates a
          (LLMService.generate_with_retries aggressive fmt oracle max_retries
            travel_dates)) ∨
      ((∀ a, a ≤ max_retries → AttemptFails aggressive oracle travel_dates a) ∧
        LLMService.generate_with_retries aggressive fmt oracle max_retries
            travel_dates
          = LLMService.create_fallback_itinerary fmt travel_dates ∧
        planDayCount
            (LLMService.generate_with_retries aggressive fmt oracle max_retries
              travel_dates)
          = travel_dates.length)) := by
  have hspec := generate_with_retries_loop_spec aggressive fmt oracle travel_dates
    (max_retries + 1) 0
  rcases hspec with ⟨k, hk, hfails, hsucc⟩ | ⟨hall, heq⟩
  · simp only [Nat.zero_add] at hfails hsucc
    rcases hsucc with ⟨raw, hraw, hparse⟩
    constructor
    · exact parse_some_validates aggressive raw travel_dates _ hparse
    · exact Or.inl ⟨k, by omega, hfails, ⟨raw, hraw, hparse⟩⟩
  · simp only [Nat.zero_add] at hall
    have heq2 : LLMService.generate_with_retries aggressive fmt oracle max_retries
        travel_dates = LLMService.create_fallback_itinerary fmt travel_dates := heq
    constructor
    · rw [heq2]
      exact validate_fallback_itinerary fmt travel_dates
    · refine Or.inr ⟨fun a ha => hall a (by omega), heq2, ?_⟩
      rw [heq2]
      exact planDayCount_fallback fmt travel_dates

/-- The nearest-neighbour relation the optimizer implements: each step picks
some not-yet-placed day at minimal distance from the current position,
records `round(distance, 1)` as its `travel_distance_km` (the integer `0`
for the first placed day), and advances the current position to its
coordinates. -/
inductive NNRoundSpec (dist : ℚ × ℚ → ℚ × ℚ → ℚ) :
    ℚ × ℚ → Bool → List DayPlan → List DayPlan → Prop where
  | nil : ∀ (cur : ℚ × ℚ) (first : Bool), NNRoundSpec dist cur first [] []
  | cons : ∀ (cur : ℚ × ℚ) (first : Bool) (remaining : List DayPlan) (idx : Nat)
      (out : List DayPlan), idx < remaining.length →
      (∀ d ∈ remaining,
        dist cur (remaining.getD idx default).coords ≤ dist cur d.coords) →
      NNRoundSpec dist (remaining.getD idx default).coords false
        (remaining.eraseIdx idx) out →
      NNRoundSpec dist cur first remaining
        ({ remaining.getD idx default with
            travel_distance_km :=
              if first then 0
              else roundPy1 (dist cur (remaining.getD idx default).coords) } :: out)

/-- The claim's literal reading: `travel_distance_km` equals the selection
distance exactly, with no rounding. -/
inductive NNExactSpec (dist : ℚ × ℚ → ℚ × ℚ → ℚ) :
    ℚ × ℚ → Bool → List DayPlan → List DayPlan → Prop where
  | nil : ∀ (cur : ℚ × ℚ) (first : Bool), NNExactSpec dist cur first [] []
  | cons : ∀ (cur : ℚ × ℚ) (first : Bool) (remaining : List DayPlan) (idx : Nat)
      (out : List DayPlan), idx < remaining.length →
      (∀ d ∈ remaining,
        dist cur (remaining.getD idx default).coords ≤ dist cur d.coords) →
      NNExactSpec dist (remaining.getD idx default).coords false
        (remaining.eraseIdx idx) out →
      NNExactSpec dist cur first remaining
        ({ remaining.getD idx default with
            travel_distance_km :=
              if first then 0
              else dist cur (remaining.getD idx default).coords } :: out)

theorem nnLoop_NNRoundSpec (dist : ℚ × ℚ → ℚ × ℚ → ℚ) :
    ∀ (fuel : Nat) (cur : ℚ × ℚ) (first : Bool) (remaining : List DayPlan),
      remaining.length ≤ fuel →
      NNRoundSpec dist cur first remaining (nnLoop dist fuel cur first remaining)
  | 0, cur, first, remaining, h => by
    have : remaining = [] := List.eq_nil_of_length_eq_zero (Nat.le_zero.mp h)
    subst this
    exact NNRoundSpec.nil cur first
  | fuel + 1, cur, first, [], _ => NNRoundSpec.nil cur first
  | fuel + 1, cur, first, d :: rest, h => by
    rw [nnLoop_cons]
    have hne : (d :: rest) ≠ [] := by simp
    have hidx := argminIdx_lt (fun x => dist cur x.coords) (d :: rest) hne
    have hval := argminIdx_getD (fun x => dist cur x.coords) (d :: rest) hne
    have hlen : ((d :: rest).eraseIdx
        (argminIdx (fun x => dist cur x.coords) (d :: rest)).1).length ≤ fuel := by
      rw [List.length_eraseIdx]
      simp only [hidx, if_true]
      have : (d :: rest).length ≤ fuel + 1 := h
      omega
    refine NNRoundSpec.cons cur first (d :: rest)
      (argminIdx (fun x => dist cur x.coords) (d :: rest)).1 _ hidx ?_
      (nnLoop_NNRoundSpec dist fuel _ false _ hlen)
    intro d2 hd2
    have hval2 : dist cur ((d :: rest).getD
        (argminIdx (fun x => dist cur x.coords) (d :: rest)).1 default).coords
        = (argminIdx (fun x => dist cur x.coords) (d :: rest)).2 := hval
    rw [hval2]
    exact argminIdx_min (fun x => dist cur x.coords) (d :: rest) d2 hd2

theorem annotateAux_getD (full : List DayPlan) :
    ∀ (i k : Nat) (l : List DayPlan), k < l.length →
      (annotateAux full i l).getD k default
        = { l.getD k default with
            day := i + k + 1,
            route := (full.take (i + k + 1)).map DayPlan.coords }
  | i, k, [], h => by simp at h
  | i, 0, d :: rest, _ => by simp [annotateAux]
  | i, k + 1, d :: rest, h => by
    have hk : k < rest.length := by simpa using Nat.lt_of_succ_lt_succ h
    have ih := annotateAux_getD full (i + 1) k rest hk
    simp only [annotateAux, List.getD_cons_succ]
    rw [ih]
    have harith : i + 1 + k + 1 = i + (k + 1) + 1 := by omega
    rw [harith]

theorem annotateAux_map_coords (full : List DayPlan) :
    ∀ (i : Nat) (l : List DayPlan),
      (annotateAux full i l).map DayPlan.coords = l.map DayPlan.coords
  | _, [] => by simp [annotateAux]
  | i, d :: rest => by
    simp only [annotateAux, List.map_cons, annotateAux_map_coords full (i + 1) rest]
    rfl

/-- Claim C7, amended: `optimize_route` implements the nearest-neighbour
heuristic.  An input of 0 or 1 days is returned unchanged.  For 2 or more
days the output is the annotation of a middle list obtained by repeatedly
placing a not-yet-placed day of minimal distance to the current position,
whose `travel_distance_km` is that distance rounded to one decimal place
(exactly 0 for the first placed day) — the source stores
`round(travel_distance, 1)`, not the raw distance — after which days are
renumbered `1..N` and each day's `route` holds the coordinates of all days
placed so far, in order.  Stated for every distance function, hence for the
haversine distance the source uses. -/
theorem C7_optimize_route_nearest_neighbour (dist : ℚ × ℚ → ℚ × ℚ → ℚ)
    (start : ℚ × ℚ) (days : List DayPlan) :
    (days.length ≤ 1 → RouteOptimizer.optimize_route dist start days = days) ∧
    (2 ≤ days.length →
      ∃ mid, NNRoundSpec dist start true days mid ∧
        RouteOptimizer.optimize_route dist start days = annotateRoute mid ∧
        ∀ k, k < (annotateRoute mid).length →
          ((annotateRoute mid).getD k default).day = k + 1 ∧
          ((annotateRoute mid).getD k default).route
            = ((annotateRoute mid).take (k + 1)).map DayPlan.coords) := by
  constructor
  · intro h
    unfold RouteOptimizer.optimize_route
    rw [if_pos h]
  · intro h2
    refine ⟨nnLoop dist days.length start true days,
      nnLoop_NNRoundSpec dist days.length start true days (le_refl _), ?_, ?_⟩
    · unfold RouteOptimizer.optimize_route
      rw [if_neg (by omega)]
    · intro k hk
      have hlen : (annotateRoute (nnLoop dist days.length start true days)).length
          = (nnLoop dist days.length start true days).length :=
        annotateAux_length _ 0 _
      have hk2 : k < (nnLoop dist days.length start true days).length := by
        rw [hlen] at hk
        exact hk
      have hg := annotateAux_getD (nnLoop dist days.length start true days) 0 k
        (nnLoop dist days.length start true days) hk2
      rw [annotateRoute, hg]
      refine ⟨by simp, ?_⟩
      have hmapc := annotateAux_map_coords (nnLoop dist days.length start true days)
        0 (nnLoop dist days.length start true days)
      simp only [Nat.zero_add, List.map_take]
      rw [hmapc]

theorem C7_optimize_route_nearest_neighbour_witness :
    RouteOptimizer.optimize_route dist0 (0, 0) [sampleDay] = [sampleDay] ∧
    (∃ mid, NNRoundSpec dist0 (0, 0) true [sampleDay, sampleDay] mid ∧
      RouteOptimizer.optimize_route dist0 (0, 0) [sampleDay, sampleDay]
        = annotateRoute mid ∧
      ∀ k, k < (annotateRoute mid).length →
        ((annotateRoute mid).getD k default).day = k + 1 ∧
        ((annotateRoute mid).getD k default).route
          = ((annotateRoute mid).take (k + 1)).map DayPlan.coords) :=
  ⟨(C7_optimize_route_nearest_neighbour dist0 (0, 0) [sampleDay]).1 (by decide),
   (C7_optimize_route_nearest_neighbour dist0 (0, 0) [sampleDay, sampleDay]).2
     (by decide)⟩

/-- A constant distance function whose value, 1.06 km, is not a multiple of
one tenth. -/
def cexDist : ℚ × ℚ → ℚ × ℚ → ℚ := fun _ _ => 53 / 50

theorem getD_pair_self (x : DayPlan) (idx : Nat) (h : idx < 2) :
    [x, x].getD idx default = x := by
  interval_cases idx <;> rfl

theorem eraseIdx_pair (x : DayPlan) (idx : Nat) (h : idx < 2) :
    [x, x].eraseIdx idx = [x] := by
  interval_cases idx <;> rfl

/-- Claim C7, counterexample to the claim as stated: with a distance of
exactly 1.06 between all points, the optimizer stores
`round(1.06, 1) = 1.1` as the second day's `travel_distance_km`, so no
middle list with `travel_distance_km` equal to the exact selection distance
(1.06) can reproduce the output: the claim's clause “its
`travel_distance_km` equals that distance” fails on this input. -/
theorem C7_counterexample_travel_distance_rounded :
    ¬ ∃ mid, NNExactSpec cexDist (0, 0) true [sampleDay, sampleDay] mid ∧
        RouteOptimizer.optimize_route cexDist (0, 0) [sampleDay, sampleDay]
          = annotateRoute mid := by
  rintro ⟨mid, hspec, heq⟩
  cases hspec with
  | cons _ _ _ idx out hidx hmin hrest =>
    rw [getD_pair_self sampleDay idx hidx] at heq hrest
    rw [eraseIdx_pair sampleDay idx hidx] at hrest
    cases hrest with
    | cons _ _ _ idx2 out2 hidx2 hmin2 hrest2 =>
      have h0 : idx2 = 0 := by simpa using hidx2
      subst h0
      simp only [List.getD_cons_zero, List.eraseIdx_cons_zero] at heq hrest2
      cases hrest2 with
      | cons _ _ _ idx3 out3 hidx3 hmin3 hrest3 => simp at hidx3
      | nil =>
        have harg : argminIdx (fun x => cexDist (0, 0) x.coords)
            [sampleDay, sampleDay] = (0, 53 / 50) := by
          simp [argminIdx, cexDist]
        have hnn1 : nnLoop cexDist 1 sampleDay.coords false [sampleDay]
            = [{ sampleDay with travel_distance_km := roundPy1 (cexDist sampleDay.coords sampleDay.coords) }] := rfl
        have hnn2 : nnLoop cexDist 2 (0, 0) true [sampleDay, sampleDay]
            = { sampleDay with travel_distance_km := 0 }
              :: nnLoop cexDist 1 sampleDay.coords false [sampleDay] := by
          rw [show (2 : Nat) = 1 + 1 from rfl, nnLoop_cons, harg]
          simp
        have hopteq : RouteOptimizer.optimize_route cexDist (0, 0)
            [sampleDay, sampleDay]
            = annotateRoute (nnLoop cexDist 2 (0, 0) true [sampleDay, sampleDay]) := by
          unfold RouteOptimizer.optimize_route
          rw [if_neg (by decide)]
          norm_num
        rw [hopteq, hnn2, hnn1] at heq
        have hannot : ∀ (l : List DayPlan), 1 < l.length →
            ((annotateRoute l).getD 1 default).travel_distance_km
              = (l.getD 1 default).travel_distance_km := by
          intro l hl
          rw [annotateRoute, annotateAux_getD l 0 1 l hl]
        have h2 := congrArg (fun l => (l.getD 1 default).travel_distance_km) heq
        simp only [] at h2
        rw [hannot _ (by simp), hannot _ (by simp)] at h2
        simp only [List.getD_cons_succ, List.getD_cons_zero, cexDist,
          Bool.false_eq_true, if_false] at h2
        have hfloor : (⌊(53 : ℚ) / 5⌋ : ℤ) = 10 := by
          rw [Int.floor_eq_iff]
          norm_num
        norm_num [roundPy1, roundHalfEven, hfloor] at h2
